import Mathlib

/-!
Verification development for the youtube-annotator Archive media stack:
the file classifier, scorer and selector, duration helpers, metadata
fetcher, and the clip-capture engine, embedded shallowly from the
TypeScript source.
-/

/-! ### Character-list string helpers

The TypeScript source works with JavaScript strings (case-insensitive
regex suffix tests, lower-cased substring containment).  We model those
operations structurally over `List Char` so that every definition is
kernel-executable. -/

/-- leadsCh p l : the character list p is an initial run of l. -/
def leadsCh : List Char → List Char → Bool
  | [], _ => true
  | _ :: _, [] => false
  | a :: as, b :: bs => a = b && leadsCh as bs

/-- endsCh l suffix : l ends with the character list suffix. -/
def endsCh (l suffix : List Char) : Bool :=
  leadsCh suffix.reverse l.reverse

/-- containsCh l p : p occurs contiguously inside l. -/
def containsCh : List Char → List Char → Bool
  | [], p => leadsCh p []
  | l@(_ :: rest), p => leadsCh p l || containsCh rest p

/-- Lower-case every character, modelling String.toLowerCase for the
ASCII names and format strings the repository handles. -/
def lowerL (l : List Char) : List Char := l.map Char.toLower

/-- splitCh sep l : split l at every occurrence of sep, keeping empty
groups, exactly like String.prototype.split with a one-character
separator. -/
def splitCh (sep : Char) : List Char → List (List Char)
  | [] => [[]]
  | c :: cs =>
    let r := splitCh sep cs
    if c = sep then [] :: r
    else
      match r with
      | [] => [[c]]
      | g :: gs => (c :: g) :: gs

/-- Decimal value of a digit list. -/
def digitsVal (l : List Char) : Nat :=
  l.foldl (fun a c => a * 10 + (c.toNat - 48)) 0

/-- jsNum models the JavaScript Number conversion on the strings this
repository feeds it (unsigned decimal literals with an optional single
decimal point); none models NaN.  JavaScript maps the empty string to 0,
which the model keeps. -/
def jsNum (l : List Char) : Option ℚ :=
  match splitCh '.' l with
  | [w] =>
    if w = [] then some 0
    else if w.all Char.isDigit then some (digitsVal w) else none
  | [w, fr] =>
    if w ++ fr ≠ [] ∧ w.all Char.isDigit ∧ fr.all Char.isDigit then
      some ((digitsVal w : ℚ) + (digitsVal fr : ℚ) / (10 : ℚ) ^ fr.length)
    else none
  | _ => none

/-- Floor of a rational, modelling Math.floor. -/
def ratFloor (q : ℚ) : Int := Int.fdiv q.num q.den

/-- jsMax models Math.max on two (non-NaN) numbers. -/
def jsMax (a b : ℚ) : ℚ := if a ≤ b then b else a

/-- jsMin models Math.min on two (non-NaN) numbers. -/
def jsMin (a b : ℚ) : ℚ := if a ≤ b then a else b

/-- jsMaxI : Math.max on integers. -/
def jsMaxI (a b : Int) : Int := if a ≤ b then b else a

/-- jsMinI : Math.min on integers. -/
def jsMinI (a b : Int) : Int := if a ≤ b then a else b

/-- padStart2 models String.prototype.padStart(2, "0"). -/
def padStart2 (s : String) : String :=
  if s.length = 0 then "00"
  else if s.length = 1 then "0" ++ s
  else s

/-! ### Data model (src/archive/types)

ArchiveFile mirrors the remote file entry: name, optional format
string, optional numeric size (the fetcher normalizes numeric-looking
strings before the chooser runs), optional provenance tag and raw
duration string. -/

inductive ArchiveMediaKind
  | audio | video | text | other
deriving DecidableEq, Repr

structure ArchiveFile where
  name : String
  format : Option String := none
  size : Option Int := none
  source : Option String := none
  rawLength : Option String := none
deriving DecidableEq, Repr

/-! ### File classifier (src/archive/classify, part_001) -/

def audioExts : List String := ["mp3", "ogg", "oga", "flac", "wav", "m4a", "aac", "aiff"]
def videoExts : List String := ["mp4", "m4v", "webm", "ogv", "mpeg", "mpg", "mov", "mkv"]
def textExts : List String := ["pdf", "epub", "txt"]

/-- hasExtAmong name exts : the regex test \.(e1|e2|...)$ with the i
flag, i.e. the lower-cased name ends in a dot followed by one of the
extensions. -/
def hasExtAmong (name : String) (exts : List String) : Bool :=
  exts.any fun e => endsCh (lowerL name.toList) ('.' :: e.toList)

def audioKeywords : List String := ["mp3", "ogg", "vorbis", "flac", "wav", "m4a", "aac"]
def videoKeywords : List String := ["mpeg4", "h.264", "mp4", "webm", "ogv", "quicktime", "xvid"]
def textKeywords : List String := ["pdf", "epub", "text"]

/-- guessKindByFormat : free-text format fallback; the empty string is
falsy in JavaScript so it also yields none. -/
def guessKindByFormat : Option String → Option ArchiveMediaKind
  | none => none
  | some fmt =>
    if fmt = "" then none
    else
      let f := lowerL fmt.toList
      if audioKeywords.any (fun k => containsCh f k.toList) then some .audio
      else if videoKeywords.any (fun k => containsCh f k.toList) then some .video
      else if textKeywords.any (fun k => containsCh f k.toList) then some .text
      else none

/-- classifyFileKind : extension groups first (audio, then video, then
text), format keywords only when no extension matched, other as the
final fallback. -/
def classifyFileKind (f : ArchiveFile) : ArchiveMediaKind :=
  if hasExtAmong f.name audioExts then .audio
  else if hasExtAmong f.name videoExts then .video
  else if hasExtAmong f.name textExts then .text
  else (guessKindByFormat f.format).getD .other

/-! ### Scorer and selector (src/archive/chooser, part_002) -/

def scoreExts : List String := ["mp3", "mp4", "m4a", "m4v", "webm", "ogv", "ogg", "flac", "wav"]

def hasPlayableExt (name : String) : Bool := hasExtAmong name scoreExts

/-- score : the selection heuristic, summing the kind priority, the
provenance bonus, the capped size bonus and the extension bonus exactly
as the source accumulates them. -/
def score (f : ArchiveFile) : Int :=
  let s : Int := 0
  let s := s +
    (match classifyFileKind f with
     | .video => 30
     | .audio => 20
     | .text => -10
     | .other => -20)
  let s := s + (if (lowerL (f.source.getD "").toList) = "original".toList then 5 else 0)
  let sz : Int := f.size.getD 0
  let s := s + (if sz > 0 then jsMinI (sz / (1024 * 1024)) 15 else 0)
  let s := s + (if hasPlayableExt f.name then 5 else 0)
  s

/-- Kind-priority term of score. -/
def kindTerm (f : ArchiveFile) : Int :=
  match classifyFileKind f with
  | .video => 30
  | .audio => 20
  | .text => -10
  | .other => -20

/-- Provenance term of score. -/
def provTerm (f : ArchiveFile) : Int :=
  if (lowerL (f.source.getD "").toList) = "original".toList then 5 else 0

/-- Capped size term of score. -/
def sizeTerm (f : ArchiveFile) : Int :=
  let sz : Int := f.size.getD 0
  if sz > 0 then jsMinI (sz / (1024 * 1024)) 15 else 0

/-- Extension-bonus term of score. -/
def extTerm (f : ArchiveFile) : Int :=
  if hasPlayableExt f.name then 5 else 0

structure KindSplit where
  audio : List ArchiveFile
  video : List ArchiveFile
  text : List ArchiveFile
  other : List ArchiveFile
deriving DecidableEq, Repr

/-- splitByKind : the loop pushes each file, in order, onto the list of
its classified kind; the structural recursion below builds the same
four ordered lists. -/
def splitByKind : List ArchiveFile → KindSplit
  | [] => ⟨[], [], [], []⟩
  | f :: fs =>
    let rest := splitByKind fs
    match classifyFileKind f with
    | .audio => { rest with audio := f :: rest.audio }
    | .video => { rest with video := f :: rest.video }
    | .text => { rest with text := f :: rest.text }
    | .other => { rest with other := f :: rest.other }

/-- isPlayableFile : the filter used by pickBestPlayableFile. -/
def isPlayableFile (f : ArchiveFile) : Bool :=
  decide (classifyFileKind f = .audio ∨ classifyFileKind f = .video)

/-- pickBestPlayableFile : filter to audio or video, then a stable sort
by the comparator score b - score a (descending) and take the head,
matching Array.prototype.sort (stable) followed by index 0. -/
def pickBestPlayableFile (files : List ArchiveFile) : Option ArchiveFile :=
  if files.isEmpty then none
  else
    let playable := files.filter isPlayableFile
    if playable.isEmpty then none
    else (playable.insertionSort fun a b => score b ≤ score a).head?

/-! ### Duration helpers (src/archive/index.ts) -/

/-- parseHMS : colon-delimited h:m:s / m:s / s grammar; an undefined or
empty string, any NaN component, or more than three components yields
0. -/
def parseHMS : Option String → ℚ
  | none => 0
  | some s =>
    if s = "" then 0
    else
      let parts := (splitCh ':' s.toList).map jsNum
      if parts.any Option.isNone then 0
      else
        match parts.map (fun p => p.getD 0) with
        | [h, m, sec] => h * 3600 + m * 60 + sec
        | [m, sec] => m * 60 + sec
        | [x] => x
        | _ => 0

/-- fmtHMS : clamp to zero and floor, then zero-padded minutes and
seconds with the hours segment only when nonzero. -/
def fmtHMS (sec : ℚ) : String :=
  let s : Nat := (jsMaxI 0 (ratFloor sec)).toNat
  let h := s / 3600
  let m := (s % 3600) / 60
  let r := s % 60
  let mm := padStart2 (toString m)
  let ss := padStart2 (toString r)
  if h > 0 then toString h ++ ":" ++ mm ++ ":" ++ ss
  else toString m ++ ":" ++ ss

/-! ### Metadata fetcher (src/archive/api.ts)

The remote interaction is modelled by its observable outcome: none for
a transport failure, otherwise the HTTP status paired with the parsed
JSON body.  JSON values carry rational numbers, matching JavaScript
number semantics for the decimal literals the endpoint produces. -/

inductive JVal
  | null
  | bool (b : Bool)
  | num (q : ℚ)
  | str (s : String)
  | arr (xs : List JVal)
  | obj (fields : List (String × JVal))

/-- getField : property lookup on a parsed JSON object. -/
def getField (name : String) : List (String × JVal) → Option JVal
  | [] => none
  | (k, v) :: rest => if k = name then some v else getField name rest

/-- isRecord : typeof x is object and x is not null; parsed JSON arrays
also satisfy it. -/
def isRecord : JVal → Bool
  | .obj _ => true
  | .arr _ => true
  | _ => false

/-- isArchiveApiResponse : the body has an array-valued files field
(an array body has no such property, so it fails too). -/
def isArchiveApiResponse : JVal → Bool
  | .obj fields =>
    match getField "files" fields with
    | some (.arr _) => true
    | _ => false
  | _ => false

/-- normalizeSize : a string size that Number accepts is coerced to a
number in place; anything else is untouched. -/
def normalizeSize (v : JVal) : JVal :=
  match v with
  | .str s =>
    match jsNum s.toList with
    | some q => .num q
    | none => .str s
  | other => other

/-- normalizeFile : the loop body reads the size property of the entry
and, when it is a numeric-looking string, writes the number back.
Reading a property of null throws a TypeError in JavaScript, modelled
as none; every other entry kind tolerates the read (non-object entries
have no size property and are returned unchanged). -/
def normalizeFile : JVal → Option JVal
  | .null => none
  | .obj fields =>
    some (.obj (fields.map fun kv => if kv.1 = "size" then (kv.1, normalizeSize kv.2) else kv))
  | other => some other

/-- normalizeFiles : the in-place loop over the files array; it throws
(none) at the first null entry, otherwise yields all entries with
their sizes normalized. -/
def normalizeFiles : List JVal → Option (List JVal)
  | [] => some []
  | f :: fs =>
    match normalizeFile f, normalizeFiles fs with
    | some nf, some nfs => some (nf :: nfs)
    | _, _ => none

/-- dirOf : the directory default, a string dir field or "". -/
def dirOf (fields : List (String × JVal)) : String :=
  match getField "dir" fields with
  | some (.str d) => d
  | _ => ""

/-- metaOf : the metadata default, a record metadata field or the
empty object. -/
def metaOf (fields : List (String × JVal)) : JVal :=
  match getField "metadata" fields with
  | some m => if isRecord m then m else .obj []
  | _ => .obj []

structure ArchiveMetadata where
  dir : String
  files : List JVal
  metadata : JVal

/-- Observable outcomes of the fetch: the four friendly errors thrown
by api.ts, the uncaught TypeError escaping the size-normalization loop
on a null files entry, and success. -/
inductive FetchResult
  | networkError
  | notFoundError
  | remoteError (status : Nat)
  | formatError
  | typeError
  | success (meta : ArchiveMetadata)

/-- respOk : the fetch ok flag, status in the 2xx range. -/
def respOk (status : Nat) : Bool := 200 ≤ status && status ≤ 299

/-- fetchArchiveMetadata over the abstract remote outcome: transport
failure, status triage, shape validation, then defaults and the size
normalization loop exactly as api.ts performs them; the loop's
TypeError on a null entry propagates uncaught. -/
def fetchArchiveMetadata (remote : Option (Nat × JVal)) : FetchResult :=
  match remote with
  | none => .networkError
  | some (status, body) =>
    if !respOk status then
      if status = 404 then .notFoundError else .remoteError status
    else if !isArchiveApiResponse body then .formatError
    else
      match body with
      | .obj fields =>
        let files := match getField "files" fields with
          | some (.arr fs) => fs
          | _ => []
        match normalizeFiles files with
        | some nfs => .success ⟨dirOf fields, nfs, metaOf fields⟩
        | none => .typeError
      | _ => .formatError

/-! ### Clip capture engine (part_006, saveArchiveClip)

The asynchronous capture pipeline is embedded as a function from the
environment outcomes of its awaited steps (fetch, seek readiness,
worklet load, playback, recorder support, persistence) to the final
observable result: outcome tag, guard flag, primary-element state,
and per-session bookkeeping of the two temporary object URLs. -/

structure MediaState where
  paused : Bool
  ended : Bool
  currentTime : ℚ
deriving DecidableEq, Repr

/-- Outcome of the bounded seek-and-ready wait.  The timeout helper in
the source resolves rather than rejects, so a timeout does not raise;
only an error event (decode error) makes the awaited race throw. -/
inductive SeekRes
  | ok | timedOut | decodeErr
deriving DecidableEq, Repr

structure CaptureEnv where
  mediaPresent : Bool
  isClipping : Bool
  primary : MediaState
  srcNeedsBlob : Bool
  fetchOk : Bool
  seek : SeekRes
  audioCtxOk : Bool
  workletOk : Bool
  playOk : Bool
  recorderOk : Bool
  webmNonEmpty : Bool
  wavNonEmpty : Bool
  cloneEnded : Bool
  folderOk : Bool
  writeOk : Bool
deriving DecidableEq, Repr

inductive CaptureOutcome
  | notReady | busy | prepError | seekError | noAudioCtx | workletError | playError
  | emptyCapture | folderError | writeError | saved (webm : Bool)
deriving DecidableEq, Repr

structure CaptureResult where
  outcome : CaptureOutcome
  isClipping : Bool
  primary : MediaState
  cloneCreated : Bool
  cloneRemoved : Bool
  blobUrlCreated : Bool
  blobUrlRevoked : Nat
  workletUrlCreated : Bool
  workletUrlRevoked : Nat
deriving DecidableEq, Repr

/-- normalizeRange : s = max(0, min(start, end)); e = max(start, end)
pulled back to s + 60 when the span exceeds 60 seconds. -/
def normalizeRange (s0 e0 : ℚ) : ℚ × ℚ :=
  let s := jsMax 0 (jsMin s0 e0)
  let e1 := jsMax s0 e0
  (s, if e1 - s > 60 then s + 60 else e1)

/-- saveArchiveClip : straight-line embedding of the capture pipeline.
Every exit path records the guard flag, the primary element state (the
source pauses it after the blob step and, on each later exit, seeks it
to the clamped end and resumes it only if it was playing), whether the
clone was created and removed, and how often each of the two temporary
object URLs was revoked.  The clip blob URL is revoked only by the
ended listener on the clone, and the worklet URL is revoked in both the
catch and the finally when the module load fails. -/
def saveArchiveClip (env : CaptureEnv) (s0 e0 : ℚ) : CaptureResult :=
  if !env.mediaPresent then
    { outcome := .notReady, isClipping := env.isClipping, primary := env.primary,
      cloneCreated := false, cloneRemoved := false,
      blobUrlCreated := false, blobUrlRevoked := 0,
      workletUrlCreated := false, workletUrlRevoked := 0 }
  else
    let e := (normalizeRange s0 e0).2
    if env.isClipping then
      { outcome := .busy, isClipping := true, primary := env.primary,
        cloneCreated := false, cloneRemoved := false,
        blobUrlCreated := false, blobUrlRevoked := 0,
        workletUrlCreated := false, workletUrlRevoked := 0 }
    else if env.srcNeedsBlob && !env.fetchOk then
      { outcome := .prepError, isClipping := false, primary := env.primary,
        cloneCreated := true, cloneRemoved := true,
        blobUrlCreated := false, blobUrlRevoked := 0,
        workletUrlCreated := false, workletUrlRevoked := 0 }
    else
      let blobCreated := env.srcNeedsBlob
      let wasPlaying := !env.primary.paused && !env.primary.ended
      let restored : MediaState :=
        { paused := !wasPlaying, ended := env.primary.ended, currentTime := e }
      if env.seek = .decodeErr then
        { outcome := .seekError, isClipping := false, primary := restored,
          cloneCreated := true, cloneRemoved := true,
          blobUrlCreated := blobCreated, blobUrlRevoked := 0,
          workletUrlCreated := false, workletUrlRevoked := 0 }
      else if !env.audioCtxOk then
        { outcome := .noAudioCtx, isClipping := false, primary := restored,
          cloneCreated := true, cloneRemoved := true,
          blobUrlCreated := blobCreated, blobUrlRevoked := 0,
          workletUrlCreated := false, workletUrlRevoked := 0 }
      else if !env.workletOk then
        { outcome := .workletError, isClipping := false, primary := restored,
          cloneCreated := true, cloneRemoved := true,
          blobUrlCreated := blobCreated, blobUrlRevoked := 0,
          workletUrlCreated := true, workletUrlRevoked := 2 }
      else if !env.playOk then
        { outcome := .playError, isClipping := false, primary := restored,
          cloneCreated := true, cloneRemoved := true,
          blobUrlCreated := blobCreated, blobUrlRevoked := 0,
          workletUrlCreated := true, workletUrlRevoked := 1 }
      else
        let webm := env.recorderOk && env.webmNonEmpty
        let nonEmptyOut := webm || env.wavNonEmpty
        let bRev : Nat := if blobCreated && env.cloneEnded then 1 else 0
        if !nonEmptyOut then
          { outcome := .emptyCapture, isClipping := false, primary := restored,
            cloneCreated := true, cloneRemoved := true,
            blobUrlCreated := blobCreated, blobUrlRevoked := bRev,
            workletUrlCreated := true, workletUrlRevoked := 1 }
        else if !env.folderOk then
          { outcome := .folderError, isClipping := false, primary := restored,
            cloneCreated := true, cloneRemoved := true,
            blobUrlCreated := blobCreated, blobUrlRevoked := bRev,
            workletUrlCreated := true, workletUrlRevoked := 1 }
        else if !env.writeOk then
          { outcome := .writeError, isClipping := false, primary := restored,
            cloneCreated := true, cloneRemoved := true,
            blobUrlCreated := blobCreated, blobUrlRevoked := bRev,
            workletUrlCreated := true, workletUrlRevoked := 1 }
        else
          { outcome := .saved webm, isClipping := false, primary := restored,
            cloneCreated := true, cloneRemoved := true,
            blobUrlCreated := blobCreated, blobUrlRevoked := bRev,
            workletUrlCreated := true, workletUrlRevoked := 1 }

/-! ### Helper lemmas -/

theorem jsMax_eq_max (a b : ℚ) : jsMax a b = max a b := by
  unfold jsMax
  split_ifs with h
  · exact (max_eq_right h).symm
  · exact (max_eq_left (le_of_not_le h)).symm

theorem jsMin_eq_min (a b : ℚ) : jsMin a b = min a b := by
  unfold jsMin
  split_ifs with h
  · exact (min_eq_left h).symm
  · exact (min_eq_right (le_of_not_le h)).symm

/-! ### Claims about the clip capture engine -/

/-- C1: the capture normalizes a requested range (s0, e0) to
s = max(0, min(s0, e0)) and e = min(max(s0, e0), s + 60): an inverted
pair is swapped, an over-long span is clamped by pulling the end time
backward and the start is never extended; in particular (80, 10)
yields (10, 70). -/
theorem C1_range_normalization (s0 e0 : ℚ) :
    (normalizeRange s0 e0).1 = max 0 (min s0 e0)
    ∧ (normalizeRange s0 e0).2 = min (max s0 e0) ((normalizeRange s0 e0).1 + 60)
    ∧ normalizeRange 80 10 = (10, 70) := by
  refine ⟨?_, ?_, by norm_num [normalizeRange, jsMax, jsMin]⟩
  · simp [normalizeRange, jsMax_eq_max, jsMin_eq_min]
  · simp only [normalizeRange, jsMax_eq_max, jsMin_eq_min]
    split_ifs with h
    · exact (min_eq_right (by linarith)).symm
    · exact (min_eq_left (by linarith)).symm

/-- C2: a capture request arriving while the single-flight guard is set
is rejected at once: the outcome is the busy rejection, the guard stays
set, the primary media element is untouched, no clone is created and no
temporary object URL is created or revoked. -/
theorem C2_single_flight_guard (env : CaptureEnv) (s0 e0 : ℚ)
    (hm : env.mediaPresent = true) (hc : env.isClipping = true) :
    (saveArchiveClip env s0 e0).outcome = .busy
    ∧ (saveArchiveClip env s0 e0).isClipping = true
    ∧ (saveArchiveClip env s0 e0).primary = env.primary
    ∧ (saveArchiveClip env s0 e0).cloneCreated = false
    ∧ (saveArchiveClip env s0 e0).blobUrlCreated = false
    ∧ (saveArchiveClip env s0 e0).workletUrlCreated = false
    ∧ (saveArchiveClip env s0 e0).blobUrlRevoked = 0
    ∧ (saveArchiveClip env s0 e0).workletUrlRevoked = 0 := by
  simp [saveArchiveClip, hm, hc]

def busyEnv : CaptureEnv :=
  { mediaPresent := true, isClipping := true, primary := ⟨false, false, 5⟩,
    srcNeedsBlob := true, fetchOk := true, seek := .ok, audioCtxOk := true,
    workletOk := true, playOk := true, recorderOk := true, webmNonEmpty := true,
    wavNonEmpty := true, cloneEnded := false, folderOk := true, writeOk := true }

theorem C2_single_flight_guard_witness :
    busyEnv.mediaPresent = true ∧ busyEnv.isClipping = true
    ∧ (saveArchiveClip busyEnv 5 30).outcome = .busy
    ∧ (saveArchiveClip busyEnv 5 30).primary = busyEnv.primary := by
  refine ⟨rfl, rfl, (C2_single_flight_guard busyEnv 5 30 rfl rfl).1,
    (C2_single_flight_guard busyEnv 5 30 rfl rfl).2.2.1⟩

def env9 : CaptureEnv :=
  { mediaPresent := true, isClipping := false, primary := ⟨false, false, 0⟩,
    srcNeedsBlob := false, fetchOk := true, seek := .decodeErr, audioCtxOk := true,
    workletOk := true, playOk := true, recorderOk := true, webmNonEmpty := true,
    wavNonEmpty := true, cloneEnded := false, folderOk := true, writeOk := true }

def env9t : CaptureEnv := { env9 with seek := .timedOut }

/-- C9 counterexample: with the primary at position 0 and a request for
(10, 20), a decode error during the seek phase leaves the primary at
position 20 (the clamped end), not at its pre-capture position 0; and a
seek timeout does not abort at all, because the bounded wait resolves
instead of rejecting, so the capture proceeds to a saved result. -/
theorem C9_seek_failure_counterexample :
    (saveArchiveClip env9 10 20).outcome = .seekError
    ∧ env9.primary.currentTime = 0
    ∧ (saveArchiveClip env9 10 20).primary.currentTime = 20
    ∧ (saveArchiveClip env9t 10 20).outcome = .saved true := by
  refine ⟨?_, rfl, ?_, ?_⟩ <;>
    norm_num [saveArchiveClip, env9, env9t, normalizeRange, jsMax, jsMin] <;> rfl

/-- C9 amended: when the seek phase hits a decode error the capture
aborts with full cleanup of the partial session (clone removed, guard
released, no worklet URL yet) and the primary element is seeked to the
clamped end of the requested range, resuming only if it was playing
before the capture; a seek or ready timeout does not abort, since the
bounded wait resolves silently; the pre-capture position is not
restored. -/
theorem C9_seek_decode_error_cleanup (env : CaptureEnv) (s0 e0 : ℚ)
    (hm : env.mediaPresent = true) (hc : env.isClipping = false)
    (hf : env.srcNeedsBlob = false ∨ env.fetchOk = true)
    (hs : env.seek = .decodeErr) :
    (saveArchiveClip env s0 e0).outcome = .seekError
    ∧ (saveArchiveClip env s0 e0).isClipping = false
    ∧ (saveArchiveClip env s0 e0).cloneRemoved = true
    ∧ (saveArchiveClip env s0 e0).workletUrlCreated = false
    ∧ (saveArchiveClip env s0 e0).primary.currentTime = (normalizeRange s0 e0).2
    ∧ (saveArchiveClip env s0 e0).primary.paused
        = (env.primary.paused || env.primary.ended) := by
  rcases hf with hf | hf <;> simp [saveArchiveClip, hm, hc, hf, hs]

theorem C9_seek_decode_error_cleanup_witness :
    env9.mediaPresent = true ∧ env9.isClipping = false
    ∧ (env9.srcNeedsBlob = false ∨ env9.fetchOk = true) ∧ env9.seek = .decodeErr
    ∧ (saveArchiveClip env9 10 20).outcome = .seekError
    ∧ (saveArchiveClip env9 10 20).primary.currentTime = (normalizeRange 10 20).2 := by
  refine ⟨rfl, rfl, Or.inl rfl, rfl,
    (C9_seek_decode_error_cleanup env9 10 20 rfl rfl (Or.inl rfl) rfl).1,
    (C9_seek_decode_error_cleanup env9 10 20 rfl rfl (Or.inl rfl) rfl).2.2.2.2.1⟩

def env10 : CaptureEnv :=
  { mediaPresent := true, isClipping := false, primary := ⟨false, false, 0⟩,
    srcNeedsBlob := true, fetchOk := true, seek := .ok, audioCtxOk := true,
    workletOk := false, playOk := true, recorderOk := true, webmNonEmpty := true,
    wavNonEmpty := true, cloneEnded := false, folderOk := true, writeOk := true }

def env10b : CaptureEnv := { env10 with workletOk := true }

/-- C10: the claim that every temporary object URL is revoked exactly
once fails on the code: when the worklet module load fails, its URL is
revoked both in the catch block and in the finally block (twice), and
on a fully successful capture of a mid-file range the blob URL created
for the clone is never revoked, because its only revocation hangs on an
ended event that a mid-file clip never fires. -/
theorem C10_url_revocation_bug :
    ((saveArchiveClip env10 0 10).workletUrlCreated = true
     ∧ (saveArchiveClip env10 0 10).workletUrlRevoked = 2)
    ∧ ((saveArchiveClip env10b 0 10).outcome = .saved true
       ∧ (saveArchiveClip env10b 0 10).blobUrlCreated = true
       ∧ (saveArchiveClip env10b 0 10).blobUrlRevoked = 0) := by
  refine ⟨⟨?_, ?_⟩, ?_, ?_, ?_⟩ <;>
    norm_num [saveArchiveClip, env10, env10b, normalizeRange, jsMax, jsMin] <;> rfl

/-! ### Claims about the scorer and selector -/

/-- firstMax : the earliest element of maximal score, the head a stable
descending-score sort produces. -/
def firstMax : List ArchiveFile → Option ArchiveFile
  | [] => none
  | f :: fs =>
    match firstMax fs with
    | none => some f
    | some g => if score f < score g then some g else some f

theorem firstMax_eq_none_iff (l : List ArchiveFile) : firstMax l = none ↔ l = [] := by
  cases l with
  | nil => simp [firstMax]
  | cons x xs =>
    rw [firstMax]
    cases hx : firstMax xs with
    | none => simp
    | some g =>
      by_cases hlt : score x < score g <;> simp [hlt]

theorem firstMax_spec (l : List ArchiveFile) (f : ArchiveFile) (hf : firstMax l = some f) :
    ∃ i, ∃ hi : i < l.length, l.get ⟨i, hi⟩ = f
      ∧ (∀ j (hj : j < l.length), score (l.get ⟨j, hj⟩) ≤ score f)
      ∧ (∀ j (hj : j < l.length), j < i → score (l.get ⟨j, hj⟩) < score f) := by
  induction l generalizing f with
  | nil => simp [firstMax] at hf
  | cons x xs ih =>
    rw [firstMax] at hf
    cases hx : firstMax xs with
    | none =>
      rw [hx] at hf
      dsimp only at hf
      obtain rfl : x = f := by injection hf
      obtain rfl : xs = [] := (firstMax_eq_none_iff xs).mp hx
      refine ⟨0, by simp, rfl, ?_, ?_⟩
      · intro j hj
        obtain rfl : j = 0 := by
          simp only [List.length_cons, List.length_nil] at hj
          omega
        simp
      · intro j hj hj0
        omega
    | some g =>
      rw [hx] at hf
      dsimp only at hf
      obtain ⟨i, hi, hget, hmax, hfirst⟩ := ih g hx
      by_cases hlt : score x < score g
      · rw [if_pos hlt] at hf
        obtain rfl : g = f := by injection hf
        refine ⟨i + 1, by simpa using Nat.succ_lt_succ hi, by simpa using hget, ?_, ?_⟩
        · intro j hj
          cases j with
          | zero => simpa using le_of_lt hlt
          | succ k => simpa using hmax k (by simpa using hj)
        · intro j hj hji
          cases j with
          | zero => simpa using hlt
          | succ k => simpa using hfirst k (by simpa using hj) (by omega)
      · rw [if_neg hlt] at hf
        obtain rfl : x = f := by injection hf
        refine ⟨0, by simp, by simp, ?_, ?_⟩
        · intro j hj
          cases j with
          | zero => simp
          | succ k =>
            calc score ((x :: xs).get ⟨k + 1, hj⟩) = score (xs.get ⟨k, by simpa using hj⟩) := by simp
              _ ≤ score g := hmax k (by simpa using hj)
              _ ≤ score x := le_of_not_lt hlt
        · intro j hj hj0
          omega

theorem head_insertionSort_eq_firstMax (l : List ArchiveFile) :
    (l.insertionSort fun a b => score b ≤ score a).head? = firstMax l := by
  induction l with
  | nil => rfl
  | cons x xs ih =>
    rw [List.insertionSort]
    cases hs : xs.insertionSort fun a b => score b ≤ score a with
    | nil =>
      obtain rfl : xs = [] := by
        have hp := List.perm_insertionSort (fun a b => score b ≤ score a) xs
        rw [hs] at hp
        exact (List.Perm.nil_eq hp).symm
      simp [List.insertionSort, List.orderedInsert, firstMax]
    | cons y ys =>
      rw [hs] at ih
      simp only [List.head?] at ih
      rw [firstMax, ← ih, List.orderedInsert]
      dsimp only
      by_cases hxy : score y ≤ score x
      · rw [if_pos hxy, if_neg (not_lt.mpr hxy)]
        rfl
      · rw [if_neg hxy, if_pos (not_le.mp hxy)]
        rfl

/-- C3: pickBestPlayableFile filters to files classified audio or
video; it returns none exactly when that filtered list is empty, and
otherwise it returns the playable file at the first index of maximal
score: a member of the input, maximal among the filtered list, with
every strictly earlier playable file scoring strictly less. -/
theorem C3_pick_best_playable (files : List ArchiveFile) :
    (files.filter isPlayableFile = [] → pickBestPlayableFile files = none)
    ∧ (files.filter isPlayableFile ≠ [] → (pickBestPlayableFile files).isSome = true)
    ∧ ∀ f, pickBestPlayableFile files = some f →
        f ∈ files ∧ isPlayableFile f = true
        ∧ ∃ i, ∃ hi : i < (files.filter isPlayableFile).length,
            (files.filter isPlayableFile).get ⟨i, hi⟩ = f
            ∧ (∀ j (hj : j < (files.filter isPlayableFile).length),
                score ((files.filter isPlayableFile).get ⟨j, hj⟩) ≤ score f)
            ∧ (∀ j (hj : j < (files.filter isPlayableFile).length), j < i →
                score ((files.filter isPlayableFile).get ⟨j, hj⟩) < score f) := by
  refine ⟨?_, ?_, ?_⟩
  · intro h
    by_cases hf : files.isEmpty <;>
      simp [pickBestPlayableFile, hf, h]
  · intro h
    have hfe : files.isEmpty = false := by
      cases files with
      | nil => simp at h
      | cons a l => rfl
    have hpe : (files.filter isPlayableFile).isEmpty = false := by
      cases hp : files.filter isPlayableFile with
      | nil => exact absurd hp h
      | cons a l => rfl
    rw [pickBestPlayableFile]
    simp only [hfe, Bool.false_eq_true, if_false, hpe, head_insertionSort_eq_firstMax]
    rw [Option.isSome_iff_ne_none]
    intro hn
    exact h ((firstMax_eq_none_iff _).mp hn)
  · intro f hf
    have hfm : firstMax (files.filter isPlayableFile) = some f := by
      rw [pickBestPlayableFile] at hf
      by_cases hfe : files.isEmpty
      · simp [hfe] at hf
      · simp only [hfe, if_false] at hf
        by_cases hpe : (files.filter isPlayableFile).isEmpty
        · simp [hpe] at hf
        · simpa only [hpe, if_false, head_insertionSort_eq_firstMax] using hf
    obtain ⟨i, hi, hget, hmax, hfirst⟩ := firstMax_spec _ f hfm
    have hmem : f ∈ files.filter isPlayableFile := hget ▸ List.get_mem _ _ _
    rw [List.mem_filter] at hmem
    exact ⟨hmem.1, hmem.2, i, hi, hget, hmax, hfirst⟩

def demoAudio : ArchiveFile := { name := "a.mp3", format := some "VBR MP3", size := some 1000000 }

def demoText : ArchiveFile := { name := "b.pdf" }

def demoVideo : ArchiveFile :=
  { name := "b.mp4", format := some "MPEG4", size := some 2000000, source := some "original" }

theorem C3_pick_best_playable_witness :
    [demoText, demoAudio, demoVideo].filter isPlayableFile ≠ []
    ∧ (pickBestPlayableFile [demoText, demoAudio, demoVideo]).isSome = true
    ∧ pickBestPlayableFile [demoText, demoAudio, demoVideo] = some demoVideo
    ∧ demoVideo ∈ [demoText, demoAudio, demoVideo] := by
  refine ⟨by decide, (C3_pick_best_playable _).2.1 (by decide), by decide,
    ((C3_pick_best_playable _).2.2 demoVideo (by decide)).1⟩

/-- sameOtherFactors f g : the three non-kind scoring inputs agree. -/
def sameOtherFactors (f g : ArchiveFile) : Prop :=
  f.source = g.source ∧ f.size = g.size ∧ hasPlayableExt f.name = hasPlayableExt g.name

theorem provTerm_congr (f g : ArchiveFile) (h : f.source = g.source) :
    provTerm f = provTerm g := by
  unfold provTerm
  rw [h]

theorem sizeTerm_congr (f g : ArchiveFile) (h : f.size = g.size) :
    sizeTerm f = sizeTerm g := by
  unfold sizeTerm
  rw [h]

theorem extTerm_congr (f g : ArchiveFile) (h : hasPlayableExt f.name = hasPlayableExt g.name) :
    extTerm f = extTerm g := by
  unfold extTerm
  rw [h]

theorem score_eq_terms (f : ArchiveFile) :
    score f = kindTerm f + provTerm f + sizeTerm f + extTerm f := by
  simp only [score, kindTerm, provTerm, sizeTerm, extTerm]
  omega

theorem score_kind_mono (f g : ArchiveFile) (hfg : sameOtherFactors f g)
    (hkt : kindTerm g < kindTerm f) : score g < score f := by
  obtain ⟨hsrc, hsz, hext⟩ := hfg
  rw [score_eq_terms f, score_eq_terms g, provTerm_congr f g hsrc,
    sizeTerm_congr f g hsz, extTerm_congr f g hext]
  omega

/-- C4: score is the sum of the kind-priority term (+30 video, +20
audio, -10 text, -20 other), the +5 original-provenance term, the
per-megabyte size term capped at +15 and zero for an absent or
non-positive size, and the +5 playable-extension term; consequently,
with all other factors equal, video outscores audio, audio outscores
text, and text outscores other. -/
theorem C4_score_formula :
    (∀ f, score f = kindTerm f + provTerm f + sizeTerm f + extTerm f)
    ∧ (∀ f, sizeTerm f ≤ 15)
    ∧ (∀ f, f.size = none → sizeTerm f = 0)
    ∧ (∀ f sz, f.size = some sz → sz ≤ 0 → sizeTerm f = 0)
    ∧ (∀ f g, classifyFileKind f = .video → classifyFileKind g = .audio →
        sameOtherFactors f g → score g < score f)
    ∧ (∀ f g, classifyFileKind f = .audio → classifyFileKind g = .text →
        sameOtherFactors f g → score g < score f)
    ∧ (∀ f g, classifyFileKind f = .text → classifyFileKind g = .other →
        sameOtherFactors f g → score g < score f) := by
  refine ⟨score_eq_terms, ?_, ?_, ?_, ?_, ?_, ?_⟩
  · intro f
    simp only [sizeTerm, jsMinI]
    split_ifs <;> omega
  · intro f h
    simp [sizeTerm, h]
  · intro f sz h hle
    simp only [sizeTerm, h, Option.getD_some]
    rw [if_neg (by omega)]
  · intro f g hf hg hfg
    refine score_kind_mono f g hfg ?_
    unfold kindTerm
    rw [hf, hg]
    decide
  · intro f g hf hg hfg
    refine score_kind_mono f g hfg ?_
    unfold kindTerm
    rw [hf, hg]
    decide
  · intro f g hf hg hfg
    refine score_kind_mono f g hfg ?_
    unfold kindTerm
    rw [hf, hg]
    decide

def demoOther : ArchiveFile := { name := "a.xyz" }

def demoTextPlain : ArchiveFile := { name := "a.pdf" }

def demoNeg : ArchiveFile := { name := "n.bin", size := some (-5) }

theorem C4_score_formula_witness :
    classifyFileKind demoTextPlain = .text ∧ classifyFileKind demoOther = .other
    ∧ sameOtherFactors demoTextPlain demoOther
    ∧ score demoOther < score demoTextPlain
    ∧ demoNeg.size = some (-5) ∧ sizeTerm demoNeg = 0 := by
  refine ⟨by decide, by decide, ⟨rfl, rfl, by decide⟩, ?_, rfl, ?_⟩
  · exact (C4_score_formula).2.2.2.2.2.2 demoTextPlain demoOther (by decide) (by decide)
      ⟨rfl, rfl, by decide⟩
  · exact (C4_score_formula).2.2.2.1 demoNeg (-5) rfl (by decide)

/-! ### Claims about the classifier -/

/-- C5: classifyFileKind is a total function into the four kinds that
first tests the filename suffix against the audio, video and text
extension groups in that order, and only when none matches falls back
to the lower-cased format keywords, with other as the default; it
depends only on the name and format fields. -/
theorem C5_classify_two_tier :
    (∀ f, hasExtAmong f.name audioExts = true → classifyFileKind f = .audio)
    ∧ (∀ f, hasExtAmong f.name audioExts = false → hasExtAmong f.name videoExts = true →
        classifyFileKind f = .video)
    ∧ (∀ f, hasExtAmong f.name audioExts = false → hasExtAmong f.name videoExts = false →
        hasExtAmong f.name textExts = true → classifyFileKind f = .text)
    ∧ (∀ f, hasExtAmong f.name audioExts = false → hasExtAmong f.name videoExts = false →
        hasExtAmong f.name textExts = false →
        classifyFileKind f = (guessKindByFormat f.format).getD .other)
    ∧ (∀ f g, f.name = g.name → f.format = g.format →
        classifyFileKind f = classifyFileKind g) := by
  refine ⟨?_, ?_, ?_, ?_, ?_⟩
  · intro f h
    simp [classifyFileKind, h]
  · intro f h1 h2
    simp [classifyFileKind, h1, h2]
  · intro f h1 h2 h3
    simp [classifyFileKind, h1, h2, h3]
  · intro f h1 h2 h3
    simp [classifyFileKind, h1, h2, h3]
  · intro f g hn hf
    unfold classifyFileKind
    rw [hn, hf]

def demoFmtOnly : ArchiveFile := { name := "track01", format := some "Ogg Vorbis" }

theorem C5_classify_two_tier_witness :
    hasExtAmong demoFmtOnly.name audioExts = false
    ∧ hasExtAmong demoFmtOnly.name videoExts = false
    ∧ hasExtAmong demoFmtOnly.name textExts = false
    ∧ classifyFileKind demoFmtOnly = (guessKindByFormat demoFmtOnly.format).getD .other
    ∧ classifyFileKind demoFmtOnly = .audio
    ∧ hasExtAmong demoAudio.name audioExts = true
    ∧ classifyFileKind demoAudio = .audio := by
  refine ⟨by decide, by decide, by decide,
    (C5_classify_two_tier).2.2.2.1 demoFmtOnly (by decide) (by decide) (by decide),
    by decide, by decide, (C5_classify_two_tier).1 demoAudio (by decide)⟩

/-- C6: splitByKind partitions the input without loss or duplication:
each of the four output lists is exactly the order-preserving filter of
the input by that classification, and the four lengths sum to the
input length. -/
theorem C6_split_by_kind_partition (files : List ArchiveFile) :
    (splitByKind files).audio = files.filter (fun f => classifyFileKind f = .audio)
    ∧ (splitByKind files).video = files.filter (fun f => classifyFileKind f = .video)
    ∧ (splitByKind files).text = files.filter (fun f => classifyFileKind f = .text)
    ∧ (splitByKind files).other = files.filter (fun f => classifyFileKind f = .other)
    ∧ (splitByKind files).audio.length + (splitByKind files).video.length
      + (splitByKind files).text.length + (splitByKind files).other.length
      = files.length := by
  induction files with
  | nil => simp [splitByKind]
  | cons f fs ih =>
    obtain ⟨ha, hv, ht, ho, hl⟩ := ih
    refine ⟨?_, ?_, ?_, ?_, ?_⟩
    · cases hk : classifyFileKind f <;>
        simp [splitByKind, hk, ha, hv, ht, ho, List.filter_cons]
    · cases hk : classifyFileKind f <;>
        simp [splitByKind, hk, ha, hv, ht, ho, List.filter_cons]
    · cases hk : classifyFileKind f <;>
        simp [splitByKind, hk, ha, hv, ht, ho, List.filter_cons]
    · cases hk : classifyFileKind f <;>
        simp [splitByKind, hk, ha, hv, ht, ho, List.filter_cons]
    · cases hk : classifyFileKind f <;>
        (simp [splitByKind, hk]; omega)

/-! ### Claims about the duration helpers -/

/-- C7: parseHMS implements the colon-delimited h:m:s, m:s, s grammar
with 0 for any NaN component, and fmtHMS zero-pads minutes and seconds
and includes the hours segment only when nonzero; in particular
parseHMS maps 1:02:03 to 3723 and 02:03 to 123 and bad to 0, and
fmtHMS maps 3723 to 1:02:03 and 123 to 2:03; in general any component
that fails numeric conversion makes the parse yield 0. -/
theorem C7_duration_parse_format :
    parseHMS (some "1:02:03") = 3723
    ∧ parseHMS (some "02:03") = 123
    ∧ parseHMS (some "bad") = 0
    ∧ fmtHMS 3723 = "1:02:03"
    ∧ fmtHMS 123 = "2:03"
    ∧ ∀ s : String, none ∈ (splitCh ':' s.toList).map jsNum → parseHMS (some s) = 0 := by
  refine ⟨?_, ?_, by decide, by decide, by decide, ?_⟩
  · have hs : (splitCh ':' "1:02:03".toList).map jsNum = [some 1, some 2, some 3] := by decide
    simp only [parseHMS, hs]
    norm_num
    decide
  · have hs : (splitCh ':' "02:03".toList).map jsNum = [some 2, some 3] := by decide
    simp only [parseHMS, hs]
    norm_num
    decide
  · intro s h
    by_cases hs : s = ""
    · simp [parseHMS, hs]
    · have hany : ((splitCh ':' s.toList).map jsNum).any Option.isNone = true := by
        rw [List.any_eq_true]
        exact ⟨none, h, rfl⟩
      simp only [parseHMS]
      rw [if_neg hs, if_pos hany]

theorem C7_duration_parse_format_witness :
    none ∈ (splitCh ':' "1:xx:03".toList).map jsNum
    ∧ parseHMS (some "1:xx:03") = 0 := by
  refine ⟨by decide, C7_duration_parse_format.2.2.2.2.2 "1:xx:03" (by decide)⟩

/-! ### Claims about the metadata fetcher -/

/-- C8 counterexample: the claim says an error is raised exactly when
the remote read is not a well-formed success, with a 2xx object body
holding an array-valued files field enumerated as the success case;
but a 2xx body whose files array contains a null entry is well shaped
by that definition and still raises, because the size-normalization
loop reads the size property of every entry and reading a property of
null throws an uncaught TypeError, which is none of the four friendly
error kinds. -/
theorem C8_fetch_metadata_counterexample :
    respOk 200 = true
    ∧ isArchiveApiResponse (.obj [("files", .arr [.null])]) = true
    ∧ fetchArchiveMetadata (some (200, .obj [("files", .arr [.null])])) = .typeError := by
  refine ⟨by decide, by decide, rfl⟩

/-- C8 amended: fetchArchiveMetadata maps a transport failure to the
network error, a 404 to the not-found error, any other non-2xx status
to the remote error carrying the status, and a 2xx body without an
array-valued files field to the format error; a well-shaped 2xx body
whose files array contains a null entry makes the size-normalization
loop throw an uncaught TypeError, so success occurs exactly on a
well-shaped 2xx body all of whose files entries survive the loop; on
success string sizes accepted by the numeric conversion are coerced in
place, a missing or non-record metadata map defaults to the empty
object, and a missing or non-string directory path defaults to the
empty string. -/
theorem C8_fetch_metadata (remote : Option (Nat × JVal)) :
    (remote = none → fetchArchiveMetadata remote = .networkError)
    ∧ (∀ st b, remote = some (st, b) → respOk st = false → st = 404 →
        fetchArchiveMetadata remote = .notFoundError)
    ∧ (∀ st b, remote = some (st, b) → respOk st = false → st ≠ 404 →
        fetchArchiveMetadata remote = .remoteError st)
    ∧ (∀ st b, remote = some (st, b) → respOk st = true → isArchiveApiResponse b = false →
        fetchArchiveMetadata remote = .formatError)
    ∧ (∀ st fields fs nfs, remote = some (st, .obj fields) → respOk st = true →
        getField "files" fields = some (.arr fs) → normalizeFiles fs = some nfs →
        fetchArchiveMetadata remote = .success ⟨dirOf fields, nfs, metaOf fields⟩)
    ∧ (∀ st fields fs, remote = some (st, .obj fields) → respOk st = true →
        getField "files" fields = some (.arr fs) → normalizeFiles fs = none →
        fetchArchiveMetadata remote = .typeError)
    ∧ normalizeFile .null = none
    ∧ (∀ fields, normalizeFile (.obj fields)
        = some (.obj (fields.map fun kv =>
            if kv.1 = "size" then (kv.1, normalizeSize kv.2) else kv)))
    ∧ (∀ s q, jsNum s.toList = some q → normalizeSize (.str s) = .num q)
    ∧ (∀ s, jsNum s.toList = none → normalizeSize (.str s) = .str s)
    ∧ ((∃ meta, fetchArchiveMetadata remote = .success meta) ↔
        ∃ st fields fs nfs, remote = some (st, .obj fields) ∧ respOk st = true
          ∧ getField "files" fields = some (.arr fs) ∧ normalizeFiles fs = some nfs) := by
  refine ⟨?_, ?_, ?_, ?_, ?_, ?_, rfl, fun fields => rfl, ?_, ?_, ?_⟩
  · intro h
    rw [h, fetchArchiveMetadata]
  · intro st b h hok h404
    subst h404
    simp [h, fetchArchiveMetadata, hok]
  · intro st b h hok h404
    simp [h, fetchArchiveMetadata, hok, h404]
  · intro st b h hok hfmt
    simp [h, fetchArchiveMetadata, hok, hfmt]
  · intro st fields fs nfs h hok hfiles hnorm
    have hfmt : isArchiveApiResponse (.obj fields) = true := by
      rw [isArchiveApiResponse, hfiles]
    simp only [h, fetchArchiveMetadata, hok, Bool.not_true, Bool.false_eq_true, if_false,
      hfmt, hfiles, hnorm]
  · intro st fields fs h hok hfiles hnorm
    have hfmt : isArchiveApiResponse (.obj fields) = true := by
      rw [isArchiveApiResponse, hfiles]
    simp only [h, fetchArchiveMetadata, hok, Bool.not_true, Bool.false_eq_true, if_false,
      hfmt, hfiles, hnorm]
  · intro s q h
    have h2 : jsNum s.data = some q := h
    simp [normalizeSize, h2]
  · intro s h
    have h2 : jsNum s.data = none := h
    simp [normalizeSize, h2]
  · constructor
    · rintro ⟨meta, hm⟩
      cases remote with
      | none => simp [fetchArchiveMetadata] at hm
      | some p =>
        obtain ⟨st, b⟩ := p
        by_cases hok : respOk st
        · by_cases hfmt : isArchiveApiResponse b
          · cases b with
            | obj fields =>
              have hfs : ∃ fs, getField "files" fields = some (.arr fs) := by
                rw [isArchiveApiResponse] at hfmt
                revert hfmt
                cases hgf : getField "files" fields with
                | none => simp
                | some v => cases v <;> simp
              obtain ⟨fs, hfs⟩ := hfs
              have hfmt2 : isArchiveApiResponse (.obj fields) = true := by
                rw [isArchiveApiResponse, hfs]
              cases hn : normalizeFiles fs with
              | none => simp [fetchArchiveMetadata, hok, hfmt2, hfs, hn] at hm
              | some nfs => exact ⟨st, fields, fs, nfs, rfl, hok, hfs, hn⟩
            | null => simp [isArchiveApiResponse] at hfmt
            | bool bb => simp [isArchiveApiResponse] at hfmt
            | num q => simp [isArchiveApiResponse] at hfmt
            | str sv => simp [isArchiveApiResponse] at hfmt
            | arr xs => simp [isArchiveApiResponse] at hfmt
          · rw [Bool.not_eq_true] at hfmt
            simp [fetchArchiveMetadata, hok, hfmt] at hm
        · rw [Bool.not_eq_true] at hok
          by_cases h4 : st = 404
          · subst h4
            simp [fetchArchiveMetadata, hok] at hm
          · simp [fetchArchiveMetadata, hok, h4] at hm
    · rintro ⟨st, fields, fs, nfs, hr, hok, hfs, hn⟩
      subst hr
      have hfmt2 : isArchiveApiResponse (.obj fields) = true := by
        rw [isArchiveApiResponse, hfs]
      refine ⟨⟨dirOf fields, nfs, metaOf fields⟩, ?_⟩
      simp only [fetchArchiveMetadata, hok, Bool.not_true, Bool.false_eq_true, if_false,
        hfmt2, hfs, hn]

def goodBody : JVal :=
  .obj [("files", .arr [.obj [("name", .str "a.mp3"), ("size", .str "1000000")]])]

theorem C8_fetch_metadata_witness :
    respOk 404 = false
    ∧ fetchArchiveMetadata (some (404, .null)) = .notFoundError
    ∧ respOk 503 = false ∧ (503 : Nat) ≠ 404
    ∧ fetchArchiveMetadata (some (503, .null)) = .remoteError 503
    ∧ respOk 200 = true ∧ isArchiveApiResponse (.str "x") = false
    ∧ fetchArchiveMetadata (some (200, .str "x")) = .formatError
    ∧ fetchArchiveMetadata none = .networkError
    ∧ jsNum "1000000".toList = some 1000000
    ∧ normalizeSize (.str "1000000") = .num 1000000
    ∧ normalizeFiles [JVal.null] = none
    ∧ fetchArchiveMetadata (some (200, .obj [("files", .arr [JVal.null])])) = .typeError
    ∧ (∃ meta, fetchArchiveMetadata (some (200, goodBody)) = .success meta) := by
  refine ⟨by decide, ?_, by decide, by decide, ?_, by decide, by decide, ?_, ?_, by decide, ?_,
    rfl, ?_, ?_⟩
  · exact (C8_fetch_metadata (some (404, .null))).2.1 404 .null rfl (by decide) rfl
  · exact (C8_fetch_metadata (some (503, .null))).2.2.1 503 .null rfl (by decide) (by decide)
  · exact (C8_fetch_metadata (some (200, .str "x"))).2.2.2.1 200 (.str "x") rfl (by decide)
      (by decide)
  · exact (C8_fetch_metadata none).1 rfl
  · exact (C8_fetch_metadata (some (200, goodBody))).2.2.2.2.2.2.2.2.1 "1000000" 1000000
      (by decide)
  · exact (C8_fetch_metadata (some (200, .obj [("files", .arr [JVal.null])]))).2.2.2.2.2.1
      200 [("files", .arr [JVal.null])] [JVal.null] rfl (by decide) rfl rfl
  · have hsome : (normalizeFiles
        [JVal.obj [("name", .str "a.mp3"), ("size", .str "1000000")]]).isSome = true := rfl
    obtain ⟨nfs, hn⟩ := Option.isSome_iff_exists.mp hsome
    exact ((C8_fetch_metadata (some (200, goodBody))).2.2.2.2.2.2.2.2.2.2).mpr
      ⟨200, [("files", .arr [.obj [("name", .str "a.mp3"), ("size", .str "1000000")]])],
        [.obj [("name", .str "a.mp3"), ("size", .str "1000000")]], nfs, rfl, by decide, rfl, hn⟩
